import Mathlib

/-!
Shallow embedding of the configuration-resolution core of the CRI-O
`pkg/config` package (`config.go`), together with proofs about the
merge, validation and runtime-handler logic.

Conventions:
  * Go strings are Lean `String`s, Go `int64` is Lean `Int`.
  * A Go function that can return a non-nil `error` becomes a Lean
    function into `Except String _`; the strings mirror the static text
    of the Go error messages.
  * Functions that mutate their receiver in place return the updated
    value instead.
  * Filesystem / subprocess interactions performed by subsystems whose
    code is outside the embedded file are abstracted into explicit
    oracle records (`ExternalChecks`, `MonitorChecks`, `SocketHost`);
    each oracle field stands for the success of exactly one external
    call, in the order the source performs them.
-/

namespace CrioConfig

/-! ## Constants (`config.go`, lines 50-62 and 105-113) -/

def OCIBufSize : Int := 8192

def defaultCtrStopTimeout : Int := 30

def RuntimeTypeVM : String := "vm"

def RuntimeTypePod : String := "pod"

/-- Modelled from the spec: the backend type is "one of a closed enumeration:
default/\"oci\", \"vm\", \"pod\"".  The `DefaultRuntimeType` constant is
declared outside the provided sources. -/
def DefaultRuntimeType : String := "oci"

/-- Modelled from the spec: the "built-in default name" used as fallback for
an unset default runtime.  The `defaultRuntime` constant is declared outside
the provided sources; the source comments in `ValidateDefaultRuntime` name it
"runc". -/
def defaultRuntime : String := "runc"

/-- Modelled from the spec: the built-in default runtime root.  The
`DefaultRuntimeRoot` constant is declared outside the provided sources; its
value is irrelevant to every claim below. -/
def DefaultRuntimeRoot : String := "/run/runc"

/-- Modelled from the spec: "an empty resulting cgroup falls back to a
built-in default".  The `defaultMonitorCgroup` constant is declared outside
the provided sources; its (non-empty) value is irrelevant to the claims. -/
def defaultMonitorCgroup : String := "system.slice"

/-- Modelled from the spec: the "fixed pod-scope token" the monitor cgroup is
compared against (`utils.PodCgroupName`, declared outside the provided
sources). -/
def PodCgroupName : String := "pod"

/-- Modelled from the spec: "the universe of all annotations the runtime
recognizes" (`annotations.AllAllowedAnnotations`, declared outside the
provided sources).  The member strings are taken from the recognized values
enumerated in the source's doc comment on the allowed-annotations field. -/
def AllAllowedAnnotations : List String :=
  [ "io.kubernetes.cri-o.userns-mode"
  , "io.kubernetes.cri-o.Devices"
  , "io.kubernetes.cri-o.ShmSize"
  , "io.containers.trace-syscall"
  , "io.kubernetes.cri-o.LinkLogs"
  , "seccomp-profile.kubernetes.cri-o.io" ]

/-! ## Storage-option de-duplication (`removeDupStorageOpts`, lines 756-772) -/

/-- The body of the downward `for` loop of `removeDupStorageOpts`: the input
list is the remaining options in scan order (the Go loop runs from the last
index towards the first, so callers pass the reversed list), `seen` plays the
role of the `opts` map, and kept elements are accumulated in scan order
exactly as the Go code appends them to `resOpts`. -/
def removeDupGo : List String → List String → List String
  | [], _ => []
  | a :: rest, seen =>
      if a ∈ seen then removeDupGo rest seen
      else a :: removeDupGo rest (a :: seen)

/-- Go `removeDupStorageOpts` removes duplicated storage options keeping the
last appearance: scan from the end keeping first-seen, then reverse the
accumulated list (the final swap loop of the Go function). -/
def removeDupStorageOpts (storageOpts : List String) : List String :=
  (removeDupGo storageOpts.reverse []).reverse

/-- Spec-side definition, following the spec's words: de-duplicate "keeping
the last occurrence's position, discarding earlier duplicates", preserving
the relative order of the remaining entries.  An element is kept exactly when
it does not occur again later in the list. -/
def keepLastOccurrences : List String → List String
  | [] => []
  | a :: rest =>
      if a ∈ rest then keepLastOccurrences rest
      else a :: keepLastOccurrences rest

/-! ## Merge engine (`UpdateFromDropInFile` / `UpdateFromPath`, lines 691-794)

The fields of the configuration that the drop-in merge logic treats
specially are the four `RootConfig` storage fields; the embedding models
exactly those (the remaining fields follow plain
decode-over-current-value TOML semantics and no claim is about them). -/

/-- Go `RootConfig` (the root of the "crio" TOML table), restricted to the
fields read or written by the drop-in merge logic. -/
structure RootConfig where
  Root : String
  RunRoot : String
  Storage : String
  StorageOptions : List String
  deriving DecidableEq

/-- One parsed drop-in fragment.  `toml.Decode` into the pre-populated
shadow `tomlConfig` overwrites a field exactly when the fragment names its
key, so a fragment field is `none` (key absent, current value kept by the
decoder) or `some v` (key present with value `v`). -/
structure Fragment where
  root : Option String := none
  runroot : Option String := none
  storage_driver : Option String := none
  storage_option : Option (List String) := none
  deriving DecidableEq

/-- Go `UpdateFromDropInFile` after a successful read and decode: capture the
pre-fragment root/run/driver, overlay-decode the fragment, accumulate and
de-duplicate the storage options, and restore any of the three captured
fields the fragment left empty. -/
def UpdateFromDropInFile (c : RootConfig) (f : Fragment) : RootConfig :=
  let graphRoot := c.Root
  let runRoot := c.RunRoot
  let storageDriver := c.Storage
  let decodedRoot := f.root.getD c.Root
  let decodedRunRoot := f.runroot.getD c.RunRoot
  let decodedStorage := f.storage_driver.getD c.Storage
  let decodedOpts := f.storage_option.getD c.StorageOptions
  let storageOpts := removeDupStorageOpts (c.StorageOptions ++ decodedOpts)
  { Root := if decodedRoot = "" then graphRoot else decodedRoot
    RunRoot := if decodedRunRoot = "" then runRoot else decodedRunRoot
    Storage := if decodedStorage = "" then storageDriver else decodedStorage
    StorageOptions := storageOpts }

/-- Outcome of reading and decoding one drop-in file: `os.ReadFile` may
fail, `toml.Decode` may fail, or the file parses into a `Fragment`. -/
inductive FragmentData where
  | unreadable
  | undecodable
  | parsed (f : Fragment)
  deriving DecidableEq

/-- A drop-in file: its path plus what reading and decoding it yields. -/
structure DropInFile where
  path : String
  data : FragmentData
  deriving DecidableEq

/-- Message of the `os.ReadFile` error (an `*os.PathError`, whose text
carries the offending path). -/
def dropInReadError (path : String) : String :=
  "open " ++ path ++ ": read error"

/-- Message of the decode error, wrapped by `UpdateFromDropInFile` with the
offending path and the underlying decoder error. -/
def dropInDecodeError (path : String) : String :=
  "unable to decode configuration " ++ path ++ ": decode error"

/-- Go `UpdateFromDropInFile` including its failure paths.  Both error returns
happen before `t.toConfig(c)`, so a failing file leaves the configuration
untouched. -/
def UpdateFromDropInFileE (c : RootConfig) (file : DropInFile) : Except String RootConfig :=
  match file.data with
  | .unreadable => .error (dropInReadError file.path)
  | .undecodable => .error (dropInDecodeError file.path)
  | .parsed f => .ok (UpdateFromDropInFile c f)

/-- Go `UpdateFromPath`: fold the drop-in files in walk order into the
configuration, mutating it after every successful file and stopping at the
first failure.  The returned pair is the configuration as mutated so far and
the error of the failing file, if any. -/
def UpdateFromPath (c : RootConfig) : List DropInFile → RootConfig × Option String
  | [] => (c, none)
  | file :: rest =>
      match UpdateFromDropInFileE c file with
      | .error e => (c, some e)
      | .ok next => UpdateFromPath next rest

/-- Sequential application of a list of drop-in files, `none` as soon as one
fails; used to state what the prefix of a failing walk has computed. -/
def applyAll (c : RootConfig) : List DropInFile → Option RootConfig
  | [] => some c
  | file :: rest =>
      match UpdateFromDropInFileE c file with
      | .error _ => none
      | .ok next => applyAll next rest

/-! ## Runtime handlers and the runtime table (lines 190-244) -/

/-- Go `RuntimeHandler`: one named OCI-compatible execution backend (the
process-local `features` record is populated only by execution-mode probing
and carries no configuration, so it is not modelled). -/
structure RuntimeHandler where
  RuntimeConfigPath : String := ""
  RuntimePath : String := ""
  RuntimeType : String := ""
  RuntimeRoot : String := ""
  PrivilegedWithoutHostDevices : Bool := false
  AllowedAnnotations : List String := []
  DisallowedAnnotations : List String := []
  MonitorPath : String := ""
  MonitorCgroup : String := ""
  MonitorEnv : List String := []
  MonitorExecCgroup : String := ""
  RuntimePullImage : Bool := false
  deriving DecidableEq

/-- Key lookup in the `Runtimes` map (`type Runtimes map[string]*RuntimeHandler`);
the map is modelled as an association list whose first binding of a key is
authoritative. -/
def findRuntime : List (String × RuntimeHandler) → String → Option RuntimeHandler
  | [], _ => none
  | (k, v) :: rest, name => if name = k then some v else findRuntime rest name

/-- Go `RuntimeConfig` (the "crio.runtime" TOML table), restricted to the
fields the validation logic under proof reads or writes. -/
structure RuntimeConfig where
  ConmonEnv : List String := []
  DefaultRuntime : String := ""
  Conmon : String := ""
  ConmonCgroup : String := ""
  Timezone : String := ""
  Runtimes : List (String × RuntimeHandler) := []
  LogSizeMax : Int := -1
  CtrStopTimeout : Int := 30
  InfraCtrCPUSet : String := ""
  deriving DecidableEq

/-- Go `defaultRuntimeHandler` (lines 1235-1248): the built-in handler
installed when `default_runtime` is unset and no entry exists for the
built-in name.  The two annotation strings are
`annotations.OCISeccompBPFHookAnnotation` and `annotations.DevicesAnnotation`
(declared outside the provided sources; values from the source's doc
comment). -/
def defaultRuntimeHandler : RuntimeHandler :=
  { RuntimeType := DefaultRuntimeType
    RuntimeRoot := DefaultRuntimeRoot
    AllowedAnnotations := ["io.containers.trace-syscall", "io.kubernetes.cri-o.Devices"]
    MonitorEnv := ["PATH=/usr/local/sbin:/usr/local/bin:/usr/sbin:/usr/bin:/sbin:/bin"]
    MonitorCgroup := defaultMonitorCgroup }

/-- Go `ValidateDefaultRuntime` (lines 1210-1233): a present key validates as
is; a non-empty absent name is a hard error; an empty name falls back to the
built-in default name, installing the built-in handler when that name has no
entry. -/
def ValidateDefaultRuntime (c : RuntimeConfig) : Except String RuntimeConfig :=
  match findRuntime c.Runtimes c.DefaultRuntime with
  | some _ => .ok c
  | none =>
      if c.DefaultRuntime ≠ "" then
        .error ("default_runtime set to \"" ++ c.DefaultRuntime ++
          "\", but no runtime entry table [crio.runtime.runtimes." ++
          c.DefaultRuntime ++ "] was found")
      else
        let rts :=
          match findRuntime c.Runtimes defaultRuntime with
          | some _ => c.Runtimes
          | none => (defaultRuntime, defaultRuntimeHandler) :: c.Runtimes
        .ok { c with Runtimes := rts, DefaultRuntime := defaultRuntime }

/-! ## Monitor-field migration (`TranslateMonitorFields`, lines 1290-1334) -/

/-- Oracles for the execution-mode monitor checks, which live outside the
embedded file: `resolvePath p` is the result of
`validateExecutablePath("conmon", p)` (lines 1407-1421: `$PATH` lookup for an
empty path, `os.Stat` otherwise), and `isSystemd` is
`c.cgroupManager.IsSystemd()` for the cgroup manager selected earlier in
execution-mode validation. -/
structure MonitorChecks where
  resolvePath : String → Option String
  isSystemd : Bool

/-- Go `TranslateMonitorFieldsForHandler`: migrate the legacy `Conmon`,
`ConmonCgroup`, `ConmonEnv` fields onto the handler, apply the empty-cgroup
fallback, and on execution resolve the monitor path and validate the monitor
cgroup against the selected cgroup manager. -/
def TranslateMonitorFieldsForHandler (c : RuntimeConfig) (handler : RuntimeHandler)
    (onExecution : Bool) (mc : MonitorChecks) : Except String RuntimeHandler :=
  let h1 := if c.ConmonCgroup ≠ "" then { handler with MonitorCgroup := c.ConmonCgroup } else handler
  let h2 := if c.Conmon ≠ "" then { h1 with MonitorPath := c.Conmon } else h1
  let h3 := if c.ConmonEnv ≠ [] then { h2 with MonitorEnv := c.ConmonEnv } else h2
  let h4 := if h3.MonitorCgroup = "" then { h3 with MonitorCgroup := defaultMonitorCgroup } else h3
  if onExecution then
    match mc.resolvePath h4.MonitorPath with
    | none => .error "invalid conmon path"
    | some p =>
        let h5 := { h4 with MonitorPath := p }
        if mc.isSystemd = false then
          if h5.MonitorCgroup ≠ PodCgroupName ∧ h5.MonitorCgroup ≠ "" then
            .error "cgroupfs manager conmon cgroup should be 'pod' or empty"
          else
            .ok h5
        else
          if h5.MonitorCgroup = PodCgroupName ∨ h5.MonitorCgroup.endsWith ".slice" then
            .ok h5
          else
            .error "conmon cgroup should be 'pod' or a systemd slice"
  else
    .ok h4

/-- The loop body of `TranslateMonitorFields` over the `Runtimes` entries:
only handlers whose type is the default type or empty are translated; a
translation failure is wrapped with the handler name. -/
def translateRuntimesList (c : RuntimeConfig) (onExecution : Bool) (mc : MonitorChecks) :
    List (String × RuntimeHandler) → Except String (List (String × RuntimeHandler))
  | [] => .ok []
  | (name, handler) :: rest =>
      if handler.RuntimeType = DefaultRuntimeType ∨ handler.RuntimeType = "" then
        match TranslateMonitorFieldsForHandler c handler onExecution mc with
        | .error e =>
            .error ("failed to translate monitor fields for runtime " ++ name ++ ": " ++ e)
        | .ok h =>
            match translateRuntimesList c onExecution mc rest with
            | .error e => .error e
            | .ok tail => .ok ((name, h) :: tail)
      else
        match translateRuntimesList c onExecution mc rest with
        | .error e => .error e
        | .ok tail => .ok ((name, handler) :: tail)

/-- Go `TranslateMonitorFields` (lines 1290-1299). -/
def TranslateMonitorFields (c : RuntimeConfig) (onExecution : Bool) (mc : MonitorChecks) :
    Except String RuntimeConfig :=
  match translateRuntimesList c onExecution mc c.Runtimes with
  | .error e => .error e
  | .ok rts => .ok { c with Runtimes := rts }

/-! ## Static runtime validation (`RuntimeConfig.Validate`, lines 1052-1208,
with `onExecution = false`; the block guarded by `if onExecution` at lines
1114-1201 is skipped in this mode) -/

/-- Oracles for the validation steps whose implementations live outside the
embedded file, one `Bool` per external call in source order: ulimit-list
parsing, device-list parsing, `time.LoadLocation`, sysctl parsing,
capability-list validation, `cpuset.Parse` of `infra_ctr_cpuset`, the
`exec.LookPath("taskset")` `$PATH` probe, and workload validation.  All but
`tasksetFound` depend only on the text of the configured values;
`tasksetFound` depends on the host environment. -/
structure ExternalChecks where
  ulimitsOk : Bool := true
  devicesOk : Bool := true
  timezoneOk : Bool := true
  sysctlsOk : Bool := true
  capabilitiesOk : Bool := true
  cpusetParseOk : Bool := true
  tasksetFound : Bool := true
  workloadsOk : Bool := true
  deriving DecidableEq

/-- The forced stop-timeout correction of `RuntimeConfig.Validate`
(lines 1080-1086): a value below the built-in floor is raised to the floor
with a warning, never rejected. -/
def correctCtrStopTimeout (c : RuntimeConfig) : RuntimeConfig :=
  if c.CtrStopTimeout < defaultCtrStopTimeout then
    { c with CtrStopTimeout := defaultCtrStopTimeout }
  else
    c

/-- The checks of the static `RuntimeConfig.Validate` pass that follow the
stop-timeout correction (lines 1088-1207 with `onExecution = false`):
sysctls, capabilities, infra-container CPU set (parse, then `$PATH`
discovery of the taskset binary), workloads, and monitor-field
translation. -/
def validateAfterStopTimeout (ext : ExternalChecks) (mc : MonitorChecks) (c : RuntimeConfig) :
    Except String RuntimeConfig :=
  if ext.sysctlsOk = false then .error "invalid default_sysctls" else
  if ext.capabilitiesOk = false then .error "invalid capabilities" else
  if c.InfraCtrCPUSet ≠ "" ∧ ext.cpusetParseOk = false then
    .error "invalid infra_ctr_cpuset" else
  if c.InfraCtrCPUSet ≠ "" ∧ ext.tasksetFound = false then
    .error "\"taskset\" not found in $PATH" else
  if ext.workloadsOk = false then .error "workloads validation" else
  match TranslateMonitorFields c false mc with
  | .error e => .error ("monitor fields translation: " ++ e)
  | .ok c3 => .ok c3

/-- The checks of the static `RuntimeConfig.Validate` pass that follow a
successful default-runtime resolution (lines 1069-1086): timezone, log-size
floor, and the stop-timeout forced correction, continuing with
`validateAfterStopTimeout`. -/
def validateAfterDefaultRuntime (ext : ExternalChecks) (mc : MonitorChecks) (c : RuntimeConfig) :
    Except String RuntimeConfig :=
  if c.Timezone ≠ "" ∧ c.Timezone.toLower ≠ "local" ∧ ext.timezoneOk = false then
    .error ("invalid timezone: " ++ c.Timezone) else
  if 0 ≤ c.LogSizeMax ∧ c.LogSizeMax < OCIBufSize then
    .error "log size max should be negative or >= 8192" else
  validateAfterStopTimeout ext mc (correctCtrStopTimeout c)

/-- Go `RuntimeConfig.Validate` with `onExecution = false`, in source order:
ulimits, devices, default-runtime resolution, then
`validateAfterDefaultRuntime`. -/
def ValidateStatic (ext : ExternalChecks) (mc : MonitorChecks) (c : RuntimeConfig) :
    Except String RuntimeConfig :=
  if ext.ulimitsOk = false then .error "load ulimits" else
  if ext.devicesOk = false then .error "load devices" else
  match ValidateDefaultRuntime c with
  | .error e => .error e
  | .ok c1 => validateAfterDefaultRuntime ext mc c1

/-! ## Allowed / disallowed annotation sets (lines 1576-1586 and 1600-1616) -/

/-- The `for _, ann := range allowed` loop of
`validateAllowedAndGenerateDisallowedAnnotations`: every configured entry
must still be present in the map (initially the whole universe), and is
deleted once seen. -/
def checkAllowedLoop : List String → Finset String → Except String (Finset String)
  | [], m => .ok m
  | a :: rest, m =>
      if a ∈ m then checkAllowedLoop rest (m.erase a)
      else .error ("invalid allowed_annotation: " ++ a)

/-- Go source function for allowed-annotation validation, parametrized by the
universe list (`annotations.AllAllowedAnnotations` in the source, modelled as
`AllAllowedAnnotations`).  The Go function returns the remaining map keys as
a slice in map-iteration order, which is unspecified, so the result is
modelled as the remaining key set. -/
def validateAllowedAndGenerateDisallowed (allAnns allowed : List String) :
    Except String (Finset String) :=
  checkAllowedLoop allowed allAnns.toFinset

/-! ## Socket staleness (`RemoveUnusedSocket`, lines 998-1017) -/

/-- Host-side outcomes of the four system calls `RemoveUnusedSocket` can
make, in source order: `os.MkdirAll` on the socket's parent directory,
`os.Stat` on the socket path, the zero-timeout `net.DialTimeout` probe, and
`os.Remove`. -/
structure SocketHost where
  mkdirOk : Bool := true
  pathExists : Bool := false
  dialSucceeds : Bool := false
  removeOk : Bool := true
  deriving DecidableEq

instance {ε α : Type} [DecidableEq ε] [DecidableEq α] : DecidableEq (Except ε α)
  | .error e, .error f =>
      if h : e = f then isTrue (by subst h; rfl)
      else isFalse (by intro hh; injection hh; contradiction)
  | .error _, .ok _ => isFalse (fun hh => Except.noConfusion hh)
  | .ok _, .error _ => isFalse (fun hh => Except.noConfusion hh)
  | .ok a, .ok b =>
      if h : a = b then isTrue (by subst h; rfl)
      else isFalse (by intro hh; injection hh; contradiction)

/-- What a `RemoveUnusedSocket` call did: its returned error (if any) and
whether the socket file was removed. -/
structure SocketOutcome where
  result : Except String Unit
  removed : Bool
  deriving DecidableEq

/-- Go `RemoveUnusedSocket`: ensure the parent directory exists, and when the
socket path exists, fail hard if a zero-timeout connection succeeds (a live
peer), otherwise remove the file. -/
def RemoveUnusedSocket (path : String) (host : SocketHost) : SocketOutcome :=
  if host.mkdirOk = false then
    { result := .error "creating socket directories", removed := false }
  else if host.pathExists then
    if host.dialSucceeds then
      { result := .error ("already existing connection on " ++ path), removed := false }
    else if host.removeOk then
      { result := .ok (), removed := true }
    else
      { result := .error ("removing " ++ path), removed := false }
  else
    { result := .ok (), removed := false }

/-- The concrete base configuration, drop-in sequence and intermediate
merge state used for claim C8: a fragment that changes the storage driver,
followed by an unreadable file. -/
def c8Base : RootConfig := ⟨"/r", "/run", "overlay", []⟩

def c8Files : List DropInFile :=
  [⟨"00-a.conf", .parsed { storage_driver := some "vfs" }⟩, ⟨"01-b.conf", .unreadable⟩]

def c8Merged : RootConfig := ⟨"/r", "/run", "vfs", []⟩

/-- A concrete "vm"-type handler and a configuration whose legacy conmon
fields are all set, used for the C10 witness. -/
def c10Kata : RuntimeHandler :=
  { RuntimeType := "vm"
    RuntimePath := "/usr/bin/containerd-shim-kata-v2"
    MonitorPath := "/usr/bin/old-conmon"
    MonitorCgroup := ""
    MonitorEnv := ["B=2"] }

def c10Vm : RuntimeConfig :=
  { Conmon := "/usr/bin/new-conmon"
    ConmonCgroup := "pod"
    ConmonEnv := ["A=1"]
    Runtimes := [("kata", c10Kata)] }

/-- A monitor oracle on which any attempted execution-mode monitor-path
resolution would fail; used to show no monitor validation runs for vm/pod
handlers. -/
def mcNone : MonitorChecks := ⟨fun _ => none, false⟩

/-- Success indicator of an `Except` computation. -/
def exceptIsOk {ε α : Type} : Except ε α → Bool
  | .ok _ => true
  | .error _ => false

/-- Concrete configurations used by the C5, C6 and C7 witnesses and the C7
counterexample. -/
def c5Low : RuntimeConfig :=
  { CtrStopTimeout := 3, DefaultRuntime := "runc", Runtimes := [("runc", defaultRuntimeHandler)] }

def c6Small : RuntimeConfig :=
  { LogSizeMax := 100, DefaultRuntime := "runc", Runtimes := [("runc", defaultRuntimeHandler)] }

def c6Neg : RuntimeConfig :=
  { LogSizeMax := -1, DefaultRuntime := "runc", Runtimes := [("runc", defaultRuntimeHandler)] }

def c6Big : RuntimeConfig :=
  { LogSizeMax := 9000, DefaultRuntime := "runc", Runtimes := [("runc", defaultRuntimeHandler)] }

def c7Cpu : RuntimeConfig :=
  { InfraCtrCPUSet := "0", DefaultRuntime := "runc",
    Runtimes := [("runc", defaultRuntimeHandler)] }

/-! ## Claims -/

theorem removeDupGo_append_singleton (xs : List String) (seen : List String) (a : String) :
    removeDupGo (xs ++ [a]) seen =
      removeDupGo xs seen ++ (if a ∈ seen ∨ a ∈ xs then [] else [a]) := by
  induction xs generalizing seen with
  | nil => simp [removeDupGo]
  | cons b xs ih =>
      by_cases hb : b ∈ seen
      · have hcond : (a ∈ seen ∨ a ∈ b :: xs) ↔ (a ∈ seen ∨ a ∈ xs) := by
          constructor
          · rintro (h | h)
            · exact Or.inl h
            · rcases List.mem_cons.mp h with h | h
              · exact Or.inl (h ▸ hb)
              · exact Or.inr h
          · rintro (h | h)
            · exact Or.inl h
            · exact Or.inr (List.mem_cons_of_mem _ h)
        simp only [List.cons_append, removeDupGo, if_pos hb, hcond]
        rw [List.append_eq, ih]
      · have hcond : (a ∈ b :: seen ∨ a ∈ xs) ↔ (a ∈ seen ∨ a ∈ b :: xs) := by
          constructor
          · rintro (h | h)
            · rcases List.mem_cons.mp h with h | h
              · exact Or.inr (h ▸ List.mem_cons_self _ _)
              · exact Or.inl h
            · exact Or.inr (List.mem_cons_of_mem _ h)
          · rintro (h | h)
            · exact Or.inl (List.mem_cons_of_mem _ h)
            · rcases List.mem_cons.mp h with h | h
              · exact Or.inl (h ▸ List.mem_cons_self _ _)
              · exact Or.inr h
        simp only [List.cons_append, removeDupGo, if_neg hb, hcond]
        rw [List.append_eq, ih]
        simp only [hcond]

/-- The Go scan-from-the-end loop computes exactly the spec's
keep-the-last-occurrence de-duplication. -/
theorem removeDupStorageOpts_eq_keepLastOccurrences (l : List String) :
    removeDupStorageOpts l = keepLastOccurrences l := by
  induction l with
  | nil => rfl
  | cons a l ih =>
      unfold removeDupStorageOpts at *
      rw [List.reverse_cons, removeDupGo_append_singleton, List.reverse_append]
      unfold keepLastOccurrences
      by_cases ha : a ∈ l
      · simp [ha, ih]
      · simp [ha, ih]


/-- Claim C1 — merging a fragment concatenates the pre-existing storage
driver options with the fragment's options and de-duplicates by exact string
equality, keeping only the last occurrence of each duplicate at that
occurrence's position and preserving the relative order of the remaining
entries (the `keepLastOccurrences` reading of the spec); in particular base
`["a","b"]` with a fragment contributing `["c","a"]` yields `["b","c","a"]`
(see the witness). -/
theorem claim_C1_storage_option_merge (c : RootConfig) (f : Fragment) (L : List String)
    (h : f.storage_option = some L) :
    (UpdateFromDropInFile c f).StorageOptions =
      keepLastOccurrences (c.StorageOptions ++ L) := by
  simp [UpdateFromDropInFile, h, removeDupStorageOpts_eq_keepLastOccurrences]

/-- Witness for C1: the spec's own example, base `["a","b"]` and fragment
options `["c","a"]`. -/
theorem claim_C1_storage_option_merge_witness :
    (UpdateFromDropInFile ⟨"/r", "/run", "overlay", ["a", "b"]⟩
        { storage_option := some ["c", "a"] }).StorageOptions = ["b", "c", "a"] := by
  rw [claim_C1_storage_option_merge _ _ ["c", "a"] rfl]
  decide

/-- Claim C3 — for each of the three captured fields (root directory, run
directory, storage-driver name), a fragment that leaves the field empty
(key absent, or key present with the empty string) inherits the pre-fragment
value, while a non-empty fragment value overrides it. -/
theorem claim_C3_empty_field_inherits (c : RootConfig) (f : Fragment) :
    ((f.root = none ∨ f.root = some "" → (UpdateFromDropInFile c f).Root = c.Root) ∧
      (∀ v, f.root = some v → v ≠ "" → (UpdateFromDropInFile c f).Root = v)) ∧
    ((f.runroot = none ∨ f.runroot = some "" → (UpdateFromDropInFile c f).RunRoot = c.RunRoot) ∧
      (∀ v, f.runroot = some v → v ≠ "" → (UpdateFromDropInFile c f).RunRoot = v)) ∧
    ((f.storage_driver = none ∨ f.storage_driver = some "" →
        (UpdateFromDropInFile c f).Storage = c.Storage) ∧
      (∀ v, f.storage_driver = some v → v ≠ "" → (UpdateFromDropInFile c f).Storage = v)) := by
  refine ⟨⟨?_, ?_⟩, ⟨?_, ?_⟩, ⟨?_, ?_⟩⟩
  · rintro (h | h) <;> simp [UpdateFromDropInFile, h]
  · intro v hv hne
    simp [UpdateFromDropInFile, hv, hne]
  · rintro (h | h) <;> simp [UpdateFromDropInFile, h]
  · intro v hv hne
    simp [UpdateFromDropInFile, hv, hne]
  · rintro (h | h) <;> simp [UpdateFromDropInFile, h]
  · intro v hv hne
    simp [UpdateFromDropInFile, hv, hne]

/-- Witness for C3: the spec's example, base root/run/driver
`("/r","/run","overlay")` with a fragment setting only the driver to
`"vfs"`. -/
theorem claim_C3_empty_field_inherits_witness :
    (UpdateFromDropInFile ⟨"/r", "/run", "overlay", []⟩
        { storage_driver := some "vfs" }).Root = "/r" ∧
    (UpdateFromDropInFile ⟨"/r", "/run", "overlay", []⟩
        { storage_driver := some "vfs" }).RunRoot = "/run" ∧
    (UpdateFromDropInFile ⟨"/r", "/run", "overlay", []⟩
        { storage_driver := some "vfs" }).Storage = "vfs" := by
  refine ⟨?_, ?_, ?_⟩
  · exact (claim_C3_empty_field_inherits _ _).1.1 (Or.inl rfl)
  · exact (claim_C3_empty_field_inherits _ _).2.1.1 (Or.inl rfl)
  · exact (claim_C3_empty_field_inherits _ _).2.2.2 "vfs" rfl (by decide)

/-- Claim C9 — given a socket path whose parent directory can be created:
an existing path on which a zero-timeout connection succeeds produces an
error without removing the socket; an existing path with no answering peer
is removed and the call returns nil; a non-existing path returns nil without
removal. -/
theorem claim_C9_remove_unused_socket (path : String) (host : SocketHost)
    (hmk : host.mkdirOk = true) :
    (host.pathExists = true → host.dialSucceeds = true →
      RemoveUnusedSocket path host =
        { result := .error ("already existing connection on " ++ path), removed := false }) ∧
    (host.pathExists = true → host.dialSucceeds = false → host.removeOk = true →
      RemoveUnusedSocket path host = { result := .ok (), removed := true }) ∧
    (host.pathExists = false →
      RemoveUnusedSocket path host = { result := .ok (), removed := false }) := by
  refine ⟨?_, ?_, ?_⟩ <;> intros <;> simp [RemoveUnusedSocket, *]

/-- Witness for C9: all three cases at a concrete path. -/
theorem claim_C9_remove_unused_socket_witness :
    RemoveUnusedSocket "/var/run/s.sock" ⟨true, true, true, true⟩ =
      { result := .error "already existing connection on /var/run/s.sock", removed := false } ∧
    RemoveUnusedSocket "/var/run/s.sock" ⟨true, true, false, true⟩ =
      { result := .ok (), removed := true } ∧
    RemoveUnusedSocket "/var/run/s.sock" ⟨true, false, false, true⟩ =
      { result := .ok (), removed := false } := by
  refine ⟨?_, ?_, ?_⟩
  · exact (claim_C9_remove_unused_socket "/var/run/s.sock" _ rfl).1 rfl rfl
  · exact (claim_C9_remove_unused_socket "/var/run/s.sock" _ rfl).2.1 rfl rfl rfl
  · exact (claim_C9_remove_unused_socket "/var/run/s.sock" _ rfl).2.2 rfl

/-- Claim C2 — `ValidateDefaultRuntime` succeeds leaving the configuration
unchanged when the default-runtime name is a present key; errors (without
falling back) on a non-empty absent name; falls back to the built-in name,
installing a handler for it, when the name is empty (and not itself a key);
and after any success the default-runtime name is a present key. -/
theorem claim_C2_default_runtime (c : RuntimeConfig) :
    (findRuntime c.Runtimes c.DefaultRuntime ≠ none → ValidateDefaultRuntime c = .ok c) ∧
    (findRuntime c.Runtimes c.DefaultRuntime = none → c.DefaultRuntime ≠ "" →
      ValidateDefaultRuntime c = .error ("default_runtime set to \"" ++ c.DefaultRuntime ++
        "\", but no runtime entry table [crio.runtime.runtimes." ++
        c.DefaultRuntime ++ "] was found")) ∧
    (c.DefaultRuntime = "" → findRuntime c.Runtimes "" = none →
      ∃ c2, ValidateDefaultRuntime c = .ok c2 ∧ c2.DefaultRuntime = defaultRuntime ∧
        findRuntime c2.Runtimes defaultRuntime ≠ none) ∧
    (∀ c2, ValidateDefaultRuntime c = .ok c2 →
      findRuntime c2.Runtimes c2.DefaultRuntime ≠ none) := by
  refine ⟨?_, ?_, ?_, ?_⟩
  · intro h
    unfold ValidateDefaultRuntime
    cases hf : findRuntime c.Runtimes c.DefaultRuntime with
    | none => exact absurd hf h
    | some r => rfl
  · intro h hne
    unfold ValidateDefaultRuntime
    rw [h]
    simp [hne]
  · intro hempty hnone
    unfold ValidateDefaultRuntime
    rw [hempty, hnone]
    simp only [ne_eq, not_true_eq_false, if_false, ite_false]
    cases hd : findRuntime c.Runtimes defaultRuntime with
    | none =>
        refine ⟨_, rfl, rfl, ?_⟩
        simp [findRuntime]
    | some r =>
        refine ⟨_, rfl, rfl, ?_⟩
        simp [hd]
  · intro c2 h
    unfold ValidateDefaultRuntime at h
    cases hf : findRuntime c.Runtimes c.DefaultRuntime with
    | some r =>
        rw [hf] at h
        injection h with h
        subst h
        simp [hf]
    | none =>
        rw [hf] at h
        by_cases hne : c.DefaultRuntime = ""
        · simp only [hne, ne_eq, not_true_eq_false, if_false, ite_false] at h
          cases hd : findRuntime c.Runtimes defaultRuntime with
          | none =>
              rw [hd] at h
              injection h with h
              subst h
              simp [findRuntime]
          | some r =>
              rw [hd] at h
              injection h with h
              subst h
              simp [hd]
        · simp [hne] at h

/-- Witness for C2: the spec's "ghost" hard-failure example, the empty-name
fallback on an empty runtime table, and the present-key case. -/
theorem claim_C2_default_runtime_witness :
    ValidateDefaultRuntime { DefaultRuntime := "ghost" } =
      .error ("default_runtime set to \"ghost\", but no runtime entry table " ++
        "[crio.runtime.runtimes.ghost] was found") ∧
    (∃ c2, ValidateDefaultRuntime {} = .ok c2 ∧ c2.DefaultRuntime = defaultRuntime ∧
      findRuntime c2.Runtimes defaultRuntime ≠ none) ∧
    ValidateDefaultRuntime
        { DefaultRuntime := "runc", Runtimes := [("runc", defaultRuntimeHandler)] } =
      .ok { DefaultRuntime := "runc", Runtimes := [("runc", defaultRuntimeHandler)] } := by
  refine ⟨?_, ?_, ?_⟩
  · exact (claim_C2_default_runtime _).2.1 rfl (by decide)
  · exact (claim_C2_default_runtime _).2.2.1 rfl rfl
  · exact (claim_C2_default_runtime _).1 (by decide)

theorem checkAllowedLoop_ok_iff (allowed : List String) :
    ∀ m : Finset String,
      (∃ d, checkAllowedLoop allowed m = .ok d) ↔
        ((∀ a ∈ allowed, a ∈ m) ∧ allowed.Nodup) := by
  induction allowed with
  | nil =>
      intro m
      simp [checkAllowedLoop]
  | cons a rest ih =>
      intro m
      by_cases ham : a ∈ m
      · simp only [checkAllowedLoop, if_pos ham, ih, List.mem_cons, List.nodup_cons]
        constructor
        · rintro ⟨hall, hnd⟩
          refine ⟨?_, ?_, hnd⟩
          · rintro b (rfl | hb)
            · exact ham
            · exact (Finset.mem_erase.mp (hall b hb)).2
          · intro har
            exact absurd (Finset.mem_erase.mp (hall a har)).1 (by simp)
        · rintro ⟨hall, har, hnd⟩
          refine ⟨?_, hnd⟩
          intro b hb
          exact Finset.mem_erase.mpr ⟨fun hba => har (hba ▸ hb), hall b (Or.inr hb)⟩
      · simp only [checkAllowedLoop, if_neg ham]
        constructor
        · rintro ⟨d, hd⟩
          exact Except.noConfusion hd
        · rintro ⟨hall, -⟩
          exact absurd (hall a (List.mem_cons_self a rest)) ham

theorem checkAllowedLoop_ok_val (allowed : List String) :
    ∀ (m : Finset String) (d : Finset String),
      checkAllowedLoop allowed m = .ok d → d = m \ allowed.toFinset := by
  induction allowed with
  | nil =>
      intro m d hd
      injection hd with hd
      subst hd
      simp
  | cons a rest ih =>
      intro m d hd
      by_cases ham : a ∈ m
      · rw [checkAllowedLoop, if_pos ham] at hd
        have := ih (m.erase a) d hd
        subst this
        ext x
        simp only [Finset.mem_sdiff, Finset.mem_erase, List.toFinset_cons, Finset.mem_insert]
        tauto
      · rw [checkAllowedLoop, if_neg ham] at hd
        exact Except.noConfusion hd

/-- Counterexample to Claim C4 as stated: a configured allowed-annotation
list every element of which lies in the recognized universe, yet which the
validation rejects (a recognized annotation listed twice is deleted from the
working map at its first occurrence, so its second occurrence fails the
membership test). -/
theorem claim_C4_counterexample :
    (∀ a ∈ ["io.kubernetes.cri-o.Devices", "io.kubernetes.cri-o.Devices"],
        a ∈ AllAllowedAnnotations) ∧
    validateAllowedAndGenerateDisallowed AllAllowedAnnotations
        ["io.kubernetes.cri-o.Devices", "io.kubernetes.cri-o.Devices"] =
      .error "invalid allowed_annotation: io.kubernetes.cri-o.Devices" := by
  constructor
  · decide
  · decide

/-- Claim C4 (amended) — validation of a configured allowed-annotation list
`S` against a universe `U` succeeds if and only if every element of `S` is
in `U` and `S` has no duplicates (an unrecognized entry, or a repetition of
a recognized one, is an error); on success the computed disallowed set is
exactly `U` minus `S`. -/
theorem claim_C4_disallowed_complement (allAnns allowed : List String) :
    ((∃ d, validateAllowedAndGenerateDisallowed allAnns allowed = .ok d) ↔
      ((∀ a ∈ allowed, a ∈ allAnns) ∧ allowed.Nodup)) ∧
    (∀ d, validateAllowedAndGenerateDisallowed allAnns allowed = .ok d →
      d = allAnns.toFinset \ allowed.toFinset) := by
  constructor
  · refine Iff.trans (checkAllowedLoop_ok_iff allowed allAnns.toFinset) ?_
    simp [List.mem_toFinset]
  · intro d hd
    exact checkAllowedLoop_ok_val allowed _ d hd

/-- Witness for the amended C4: a singleton allowed list drawn from the
universe validates, and its disallowed set is the complement. -/
theorem claim_C4_disallowed_complement_witness :
    ∃ d, validateAllowedAndGenerateDisallowed AllAllowedAnnotations
        ["io.kubernetes.cri-o.Devices"] = .ok d ∧
      d = AllAllowedAnnotations.toFinset \ ["io.kubernetes.cri-o.Devices"].toFinset := by
  have h := claim_C4_disallowed_complement AllAllowedAnnotations ["io.kubernetes.cri-o.Devices"]
  obtain ⟨d, hd⟩ := h.1.mpr ⟨by decide, by decide⟩
  exact ⟨d, hd, h.2 d hd⟩

theorem dropInError_carries_path (c : RootConfig) (file : DropInFile) (e : String)
    (h : UpdateFromDropInFileE c file = .error e) :
    ∃ s t, e = s ++ file.path ++ t := by
  obtain ⟨p, dat⟩ := file
  cases dat with
  | unreadable =>
      injection h with h
      exact ⟨"open ", ": read error", h.symm⟩
  | undecodable =>
      injection h with h
      exact ⟨"unable to decode configuration ", ": decode error", h.symm⟩
  | parsed f =>
      exact Except.noConfusion h

/-- Counterexample to Claim C8 as stated: walking a directory whose second
drop-in file is unreadable returns an error, yet the configuration is not
"left exactly as it was before the merge began" — the first fragment's
changes remain applied. -/
theorem claim_C8_counterexample :
    (UpdateFromPath c8Base c8Files).2.isSome = true ∧
    (UpdateFromPath c8Base c8Files).1 ≠ c8Base := by
  constructor
  · decide
  · decide

/-- Claim C8 (amended) — each individual fragment is applied atomically: a
successful walk is exactly the sequential application of all files, and a
failing walk stops at the first failing file with an error carrying that
file's path, leaving the configuration as produced by the successfully
merged prefix (fragments merged before the failure remain applied). -/
theorem claim_C8_partial_merge (c : RootConfig) (files : List DropInFile) :
    (∀ c2, UpdateFromPath c files = (c2, none) → applyAll c files = some c2) ∧
    (∀ c2 e, UpdateFromPath c files = (c2, some e) →
      ∃ pre file post, files = pre ++ file :: post ∧
        applyAll c pre = some c2 ∧
        UpdateFromDropInFileE c2 file = .error e ∧
        ∃ s t, e = s ++ file.path ++ t) := by
  induction files generalizing c with
  | nil =>
      constructor
      · intro c2 h
        injection h with h1 h2
        subst h1
        rfl
      · intro c2 e h
        injection h with h1 h2
        exact Option.noConfusion h2
  | cons file rest ih =>
      constructor
      · intro c2 h
        rw [UpdateFromPath] at h
        cases hf : UpdateFromDropInFileE c file with
        | error e0 =>
            rw [hf] at h
            injection h with h1 h2
            exact Option.noConfusion h2
        | ok next =>
            rw [hf] at h
            rw [applyAll, hf]
            exact (ih next).1 c2 h
      · intro c2 e h
        rw [UpdateFromPath] at h
        cases hf : UpdateFromDropInFileE c file with
        | error e0 =>
            rw [hf] at h
            injection h with h1 h2
            subst h1
            injection h2 with h2
            subst h2
            exact ⟨[], file, rest, rfl, rfl, hf, dropInError_carries_path c file e0 hf⟩
        | ok next =>
            rw [hf] at h
            obtain ⟨pre, f0, post, hsplit, happ, herr, hpath⟩ := (ih next).2 c2 e h
            refine ⟨file :: pre, f0, post, ?_, ?_, herr, hpath⟩
            · rw [hsplit]
              rfl
            · rw [applyAll, hf]
              exact happ

/-- Witness for the amended C8: on the concrete failing walk, the merge
stops at the unreadable second file with its path in the error, and the
surviving state is the first fragment's merge result. -/
theorem claim_C8_partial_merge_witness :
    ∃ pre file post, c8Files = pre ++ file :: post ∧
      applyAll c8Base pre = some c8Merged ∧
      UpdateFromDropInFileE c8Merged file = .error "open 01-b.conf: read error" ∧
      ∃ s t, "open 01-b.conf: read error" = s ++ file.path ++ t :=
  (claim_C8_partial_merge c8Base c8Files).2 c8Merged "open 01-b.conf: read error" (by decide)

theorem translateRuntimesList_skips_vm_pod (c : RuntimeConfig) (mode : Bool)
    (mc : MonitorChecks) :
    ∀ (l l2 : List (String × RuntimeHandler)) (name : String) (h : RuntimeHandler),
      findRuntime l name = some h →
      (h.RuntimeType = RuntimeTypeVM ∨ h.RuntimeType = RuntimeTypePod) →
      translateRuntimesList c mode mc l = .ok l2 →
      findRuntime l2 name = some h := by
  intro l
  induction l with
  | nil =>
      intro l2 name h hfind
      exact absurd hfind (by simp [findRuntime])
  | cons kv rest ih =>
      obtain ⟨k, v⟩ := kv
      intro l2 name h hfind htype htr
      rw [findRuntime] at hfind
      rw [translateRuntimesList] at htr
      by_cases hcond : v.RuntimeType = DefaultRuntimeType ∨ v.RuntimeType = ""
      · rw [if_pos hcond] at htr
        cases hfh : TranslateMonitorFieldsForHandler c v mode mc with
        | error e =>
            rw [hfh] at htr
            exact Except.noConfusion htr
        | ok v2 =>
            rw [hfh] at htr
            cases htail : translateRuntimesList c mode mc rest with
            | error e =>
                rw [htail] at htr
                exact Except.noConfusion htr
            | ok tail =>
                rw [htail] at htr
                injection htr with htr
                subst htr
                by_cases hnk : name = k
                · rw [if_pos hnk] at hfind
                  injection hfind with hfind
                  subst hfind
                  rcases htype with ht | ht <;> rcases hcond with hc | hc <;>
                    rw [ht] at hc <;> exact absurd hc (by decide)
                · rw [if_neg hnk] at hfind
                  rw [findRuntime, if_neg hnk]
                  exact ih tail name h hfind htype htail
      · rw [if_neg hcond] at htr
        cases htail : translateRuntimesList c mode mc rest with
        | error e =>
            rw [htail] at htr
            exact Except.noConfusion htr
        | ok tail =>
            rw [htail] at htr
            injection htr with htr
            subst htr
            by_cases hnk : name = k
            · rw [if_pos hnk] at hfind
              rw [findRuntime, if_pos hnk]
              exact hfind
            · rw [if_neg hnk] at hfind
              rw [findRuntime, if_neg hnk]
              exact ih tail name h hfind htype htail

theorem translateRuntimesList_all_vm_pod (c : RuntimeConfig) (mode : Bool)
    (mc : MonitorChecks) :
    ∀ l : List (String × RuntimeHandler),
      (∀ p ∈ l, p.2.RuntimeType = RuntimeTypeVM ∨ p.2.RuntimeType = RuntimeTypePod) →
      translateRuntimesList c mode mc l = .ok l := by
  intro l
  induction l with
  | nil =>
      intro hall
      rfl
  | cons kv rest ih =>
      obtain ⟨k, v⟩ := kv
      intro hall
      have hv := hall (k, v) (List.mem_cons_self _ _)
      have hcond : ¬(v.RuntimeType = DefaultRuntimeType ∨ v.RuntimeType = "") := by
        rcases hv with hv | hv <;> rw [hv] <;> decide
      rw [translateRuntimesList, if_neg hcond,
        ih (fun p hp => hall p (List.mem_cons_of_mem _ hp))]

/-- Claim C10 — the monitor-field migration applies only to handlers whose
runtime type is the default type or empty: a handler of type "vm" or "pod"
passes through any `TranslateMonitorFields` run (either mode, any oracle)
completely unchanged, and a runtime table consisting solely of such handlers
makes the whole translation a no-op that cannot fail. -/
theorem claim_C10_vm_pod_untouched (c : RuntimeConfig) (onExecution : Bool)
    (mc : MonitorChecks) :
    (∀ name h c2, findRuntime c.Runtimes name = some h →
      (h.RuntimeType = RuntimeTypeVM ∨ h.RuntimeType = RuntimeTypePod) →
      TranslateMonitorFields c onExecution mc = .ok c2 →
      findRuntime c2.Runtimes name = some h) ∧
    ((∀ p ∈ c.Runtimes, p.2.RuntimeType = RuntimeTypeVM ∨ p.2.RuntimeType = RuntimeTypePod) →
      TranslateMonitorFields c onExecution mc = .ok c) := by
  constructor
  · intro name h c2 hfind htype htr
    rw [TranslateMonitorFields] at htr
    cases hl : translateRuntimesList c onExecution mc c.Runtimes with
    | error e =>
        rw [hl] at htr
        exact Except.noConfusion htr
    | ok rts =>
        rw [hl] at htr
        injection htr with htr
        subst htr
        exact translateRuntimesList_skips_vm_pod c onExecution mc _ _ name h hfind htype hl
  · intro hall
    rw [TranslateMonitorFields, translateRuntimesList_all_vm_pod c onExecution mc _ hall]

/-- Witness for C10: an execution-mode translation over a table holding only
a "vm" handler succeeds without touching it, even though the legacy conmon
fields are set, the handler's monitor cgroup is empty, and the monitor-path
oracle would reject any lookup. -/
theorem claim_C10_vm_pod_untouched_witness :
    TranslateMonitorFields c10Vm true mcNone = .ok c10Vm ∧
    findRuntime c10Vm.Runtimes "kata" = some c10Kata := by
  have h2 := (claim_C10_vm_pod_untouched c10Vm true mcNone).2 (by decide)
  refine ⟨h2, ?_⟩
  have h1 := (claim_C10_vm_pod_untouched c10Vm true mcNone).1 "kata" c10Kata c10Vm
    (by decide) (Or.inl rfl) h2
  exact h1

theorem vdr_preserves_fields (c c1 : RuntimeConfig) (h : ValidateDefaultRuntime c = .ok c1) :
    c1.ConmonEnv = c.ConmonEnv ∧ c1.Conmon = c.Conmon ∧ c1.ConmonCgroup = c.ConmonCgroup ∧
    c1.Timezone = c.Timezone ∧ c1.LogSizeMax = c.LogSizeMax ∧
    c1.CtrStopTimeout = c.CtrStopTimeout ∧ c1.InfraCtrCPUSet = c.InfraCtrCPUSet := by
  rw [ValidateDefaultRuntime] at h
  cases hf : findRuntime c.Runtimes c.DefaultRuntime with
  | some r =>
      rw [hf] at h
      injection h with h
      subst h
      exact ⟨rfl, rfl, rfl, rfl, rfl, rfl, rfl⟩
  | none =>
      rw [hf] at h
      by_cases hne : c.DefaultRuntime = ""
      · simp only [hne, ne_eq, not_true_eq_false, if_false, ite_false] at h
        injection h with h
        subst h
        exact ⟨rfl, rfl, rfl, rfl, rfl, rfl, rfl⟩
      · simp [hne] at h

theorem forHandler_static_ok (c : RuntimeConfig) (handler : RuntimeHandler)
    (mc : MonitorChecks) :
    ∃ h4, TranslateMonitorFieldsForHandler c handler false mc = .ok h4 :=
  ⟨_, rfl⟩

theorem translateRuntimesList_static_ok (c : RuntimeConfig) (mc : MonitorChecks) :
    ∀ l : List (String × RuntimeHandler),
      ∃ l2, translateRuntimesList c false mc l = .ok l2 := by
  intro l
  induction l with
  | nil => exact ⟨[], rfl⟩
  | cons kv rest ih =>
      obtain ⟨k, v⟩ := kv
      obtain ⟨tail, htail⟩ := ih
      rw [translateRuntimesList]
      by_cases hcond : v.RuntimeType = DefaultRuntimeType ∨ v.RuntimeType = ""
      · obtain ⟨h4, hh⟩ := forHandler_static_ok c v mc
        rw [if_pos hcond, hh, htail]
        exact ⟨_, rfl⟩
      · rw [if_neg hcond, htail]
        exact ⟨_, rfl⟩

theorem tmf_static_ok (c : RuntimeConfig) (mc : MonitorChecks) :
    ∃ c3, TranslateMonitorFields c false mc = .ok c3 := by
  obtain ⟨rts, hrts⟩ := translateRuntimesList_static_ok c mc c.Runtimes
  rw [TranslateMonitorFields, hrts]
  exact ⟨_, rfl⟩

theorem tmf_preserves_fields (c c3 : RuntimeConfig) (mode : Bool) (mc : MonitorChecks)
    (h : TranslateMonitorFields c mode mc = .ok c3) :
    c3.CtrStopTimeout = c.CtrStopTimeout ∧ c3.InfraCtrCPUSet = c.InfraCtrCPUSet ∧
    c3.LogSizeMax = c.LogSizeMax := by
  rw [TranslateMonitorFields] at h
  cases hl : translateRuntimesList c mode mc c.Runtimes with
  | error e =>
      rw [hl] at h
      exact Except.noConfusion h
  | ok rts =>
      rw [hl] at h
      injection h with h
      subst h
      exact ⟨rfl, rfl, rfl⟩

theorem exceptIsOk_map {ε α β : Type} (f : α → β) (x : Except ε α) :
    exceptIsOk (x.map f) = exceptIsOk x := by
  cases x <;> rfl

theorem correct_ctr_eq (c : RuntimeConfig) :
    correctCtrStopTimeout c =
      { c with CtrStopTimeout := max defaultCtrStopTimeout c.CtrStopTimeout } := by
  obtain ⟨ce, dr, cm, cc, tz, rts, ls, ct, ic⟩ := c
  rw [correctCtrStopTimeout]
  by_cases hlt : ct < defaultCtrStopTimeout
  · rw [if_pos hlt]
    have : max defaultCtrStopTimeout ct = defaultCtrStopTimeout :=
      max_eq_left (le_of_lt hlt)
    simp only [this]
  · rw [if_neg hlt]
    have : max defaultCtrStopTimeout ct = ct := max_eq_right (not_lt.mp hlt)
    simp only [this]

theorem vdr_set_ctr (c : RuntimeConfig) (t : Int) :
    ValidateDefaultRuntime { c with CtrStopTimeout := t } =
      (ValidateDefaultRuntime c).map (fun r => { r with CtrStopTimeout := t }) := by
  obtain ⟨ce, dr, cm, cc, tz, rts, ls, ct, ic⟩ := c
  rw [ValidateDefaultRuntime, ValidateDefaultRuntime]
  cases hf : findRuntime rts dr with
  | some r => rfl
  | none =>
      by_cases hne : dr = ""
      · subst hne
        cases hd : findRuntime rts defaultRuntime <;> rfl
      · simp [hne, Except.map]

theorem trl_set_ctr (c : RuntimeConfig) (t : Int) (mode : Bool) (mc : MonitorChecks) :
    ∀ l, translateRuntimesList { c with CtrStopTimeout := t } mode mc l =
      translateRuntimesList c mode mc l := by
  intro l
  induction l with
  | nil => rfl
  | cons kv rest ih =>
      obtain ⟨k, v⟩ := kv
      rw [translateRuntimesList, translateRuntimesList, ih]
      have hfh : TranslateMonitorFieldsForHandler { c with CtrStopTimeout := t } v mode mc =
          TranslateMonitorFieldsForHandler c v mode mc := rfl
      rw [hfh]

theorem tmf_set_ctr (c : RuntimeConfig) (t : Int) (mode : Bool) (mc : MonitorChecks) :
    TranslateMonitorFields { c with CtrStopTimeout := t } mode mc =
      (TranslateMonitorFields c mode mc).map (fun r => { r with CtrStopTimeout := t }) := by
  obtain ⟨ce, dr, cm, cc, tz, rts, ls, ct, ic⟩ := c
  rw [TranslateMonitorFields, TranslateMonitorFields]
  dsimp only
  rw [trl_set_ctr ⟨ce, dr, cm, cc, tz, rts, ls, ct, ic⟩ t mode mc rts]
  cases hl : translateRuntimesList ⟨ce, dr, cm, cc, tz, rts, ls, ct, ic⟩ mode mc rts <;> rfl

theorem afterStop_set_ctr (ext : ExternalChecks) (mc : MonitorChecks)
    (c : RuntimeConfig) (t : Int) :
    validateAfterStopTimeout ext mc { c with CtrStopTimeout := t } =
      (validateAfterStopTimeout ext mc c).map (fun r => { r with CtrStopTimeout := t }) := by
  obtain ⟨ce, dr, cm, cc, tz, rts, ls, ct, ic⟩ := c
  rw [validateAfterStopTimeout, validateAfterStopTimeout]
  dsimp only
  rw [tmf_set_ctr ⟨ce, dr, cm, cc, tz, rts, ls, ct, ic⟩ t false mc]
  cases hl : TranslateMonitorFields ⟨ce, dr, cm, cc, tz, rts, ls, ct, ic⟩ false mc <;>
    by_cases h1 : ext.sysctlsOk = false <;>
    by_cases h2 : ext.capabilitiesOk = false <;>
    by_cases h3 : ic ≠ "" ∧ ext.cpusetParseOk = false <;>
    by_cases h4 : ic ≠ "" ∧ ext.tasksetFound = false <;>
    by_cases h5 : ext.workloadsOk = false <;>
    simp [h1, h2, h3, h4, h5, Except.map] <;>
    split <;> rfl

theorem afterStop_ok_ctr (ext : ExternalChecks) (mc : MonitorChecks)
    (c c2 : RuntimeConfig) (h : validateAfterStopTimeout ext mc c = .ok c2) :
    c2.CtrStopTimeout = c.CtrStopTimeout := by
  rw [validateAfterStopTimeout] at h
  by_cases h1 : ext.sysctlsOk = false
  · rw [if_pos h1] at h; exact Except.noConfusion h
  rw [if_neg h1] at h
  by_cases h2 : ext.capabilitiesOk = false
  · rw [if_pos h2] at h; exact Except.noConfusion h
  rw [if_neg h2] at h
  by_cases h3 : c.InfraCtrCPUSet ≠ "" ∧ ext.cpusetParseOk = false
  · rw [if_pos h3] at h; exact Except.noConfusion h
  rw [if_neg h3] at h
  by_cases h4 : c.InfraCtrCPUSet ≠ "" ∧ ext.tasksetFound = false
  · rw [if_pos h4] at h; exact Except.noConfusion h
  rw [if_neg h4] at h
  by_cases h5 : ext.workloadsOk = false
  · rw [if_pos h5] at h; exact Except.noConfusion h
  rw [if_neg h5] at h
  cases hl : TranslateMonitorFields c false mc with
  | error e => rw [hl] at h; exact Except.noConfusion h
  | ok c3 =>
      rw [hl] at h
      injection h with h
      subst h
      exact (tmf_preserves_fields c _ false mc hl).1

theorem afterDR_set_ctr_isOk (ext : ExternalChecks) (mc : MonitorChecks)
    (c : RuntimeConfig) (t : Int) :
    exceptIsOk (validateAfterDefaultRuntime ext mc { c with CtrStopTimeout := t }) =
      exceptIsOk (validateAfterDefaultRuntime ext mc c) := by
  obtain ⟨ce, dr, cm, cc, tz, rts, ls, ct, ic⟩ := c
  unfold validateAfterDefaultRuntime
  dsimp only
  by_cases htz : tz ≠ "" ∧ tz.toLower ≠ "local" ∧ ext.timezoneOk = false
  · simp [htz]
  by_cases hls : 0 ≤ ls ∧ ls < OCIBufSize
  · simp [htz, hls]
  rw [if_neg htz, if_neg htz, if_neg hls, if_neg hls, correct_ctr_eq, correct_ctr_eq]
  dsimp only
  rw [afterStop_set_ctr ext mc ⟨ce, dr, cm, cc, tz, rts, ls, ct, ic⟩
      (max defaultCtrStopTimeout t),
    afterStop_set_ctr ext mc ⟨ce, dr, cm, cc, tz, rts, ls, ct, ic⟩
      (max defaultCtrStopTimeout ct),
    exceptIsOk_map, exceptIsOk_map]

/-- Claim C5 — the stop-timeout floor: a successful static validation
leaves `CtrStopTimeout` at exactly `max floor input` (values below the
30-second floor are raised to it, values at or above it are unchanged), and
whether validation succeeds never depends on the configured
`CtrStopTimeout` (the correction is never an error). -/
theorem claim_C5_stop_timeout_floor (ext : ExternalChecks) (mc : MonitorChecks)
    (c : RuntimeConfig) :
    (∀ c2, ValidateStatic ext mc c = .ok c2 →
      c2.CtrStopTimeout = max defaultCtrStopTimeout c.CtrStopTimeout) ∧
    (∀ t, exceptIsOk (ValidateStatic ext mc { c with CtrStopTimeout := t }) =
      exceptIsOk (ValidateStatic ext mc c)) := by
  constructor
  · intro c2 h
    rw [ValidateStatic] at h
    by_cases h1 : ext.ulimitsOk = false
    · rw [if_pos h1] at h; exact Except.noConfusion h
    rw [if_neg h1] at h
    by_cases h2 : ext.devicesOk = false
    · rw [if_pos h2] at h; exact Except.noConfusion h
    rw [if_neg h2] at h
    cases hvdr : ValidateDefaultRuntime c with
    | error e => rw [hvdr] at h; exact Except.noConfusion h
    | ok c1 =>
        rw [hvdr] at h
        obtain ⟨-, -, -, -, -, hctr, -⟩ := vdr_preserves_fields c c1 hvdr
        unfold validateAfterDefaultRuntime at h
        dsimp only at h
        by_cases htz : c1.Timezone ≠ "" ∧ c1.Timezone.toLower ≠ "local" ∧
            ext.timezoneOk = false
        · rw [if_pos htz] at h; exact Except.noConfusion h
        rw [if_neg htz] at h
        by_cases hls : 0 ≤ c1.LogSizeMax ∧ c1.LogSizeMax < OCIBufSize
        · rw [if_pos hls] at h; exact Except.noConfusion h
        rw [if_neg hls] at h
        rw [correct_ctr_eq] at h
        have := afterStop_ok_ctr ext mc _ _ h
        rw [this, ← hctr]
  · intro t
    rw [ValidateStatic, ValidateStatic]
    by_cases h1 : ext.ulimitsOk = false
    · simp [h1]
    by_cases h2 : ext.devicesOk = false
    · simp [h1, h2]
    rw [if_neg h1, if_neg h1, if_neg h2, if_neg h2, vdr_set_ctr]
    cases hvdr : ValidateDefaultRuntime c with
    | error e => rfl
    | ok c1 => exact afterDR_set_ctr_isOk ext mc c1 t

/-- Witness for C5: a stop timeout of 3 is raised to exactly the floor 30,
and changing the stop timeout does not change whether validation
succeeds. -/
theorem claim_C5_stop_timeout_floor_witness :
    ∃ c2, ValidateStatic {} mcNone c5Low = .ok c2 ∧ c2.CtrStopTimeout = 30 ∧
      exceptIsOk (ValidateStatic {} mcNone { c5Low with CtrStopTimeout := 100 }) =
        exceptIsOk (ValidateStatic {} mcNone c5Low) := by
  have hev : ValidateStatic {} mcNone c5Low = .ok { c5Low with CtrStopTimeout := 30 } := by
    decide
  refine ⟨_, hev, ?_, (claim_C5_stop_timeout_floor {} mcNone c5Low).2 100⟩
  rw [(claim_C5_stop_timeout_floor {} mcNone c5Low).1 _ hev]
  decide

theorem afterStop_static_errors (ext : ExternalChecks) (mc : MonitorChecks)
    (c : RuntimeConfig) (e : String) (h : validateAfterStopTimeout ext mc c = .error e) :
    e = "invalid default_sysctls" ∨ e = "invalid capabilities" ∨
    e = "invalid infra_ctr_cpuset" ∨ e = "\"taskset\" not found in $PATH" ∨
    e = "workloads validation" := by
  rw [validateAfterStopTimeout] at h
  by_cases h1 : ext.sysctlsOk = false
  · rw [if_pos h1] at h
    injection h with h
    exact Or.inl h.symm
  rw [if_neg h1] at h
  by_cases h2 : ext.capabilitiesOk = false
  · rw [if_pos h2] at h
    injection h with h
    exact Or.inr (Or.inl h.symm)
  rw [if_neg h2] at h
  by_cases h3 : c.InfraCtrCPUSet ≠ "" ∧ ext.cpusetParseOk = false
  · rw [if_pos h3] at h
    injection h with h
    exact Or.inr (Or.inr (Or.inl h.symm))
  rw [if_neg h3] at h
  by_cases h4 : c.InfraCtrCPUSet ≠ "" ∧ ext.tasksetFound = false
  · rw [if_pos h4] at h
    injection h with h
    exact Or.inr (Or.inr (Or.inr (Or.inl h.symm)))
  rw [if_neg h4] at h
  by_cases h5 : ext.workloadsOk = false
  · rw [if_pos h5] at h
    injection h with h
    exact Or.inr (Or.inr (Or.inr (Or.inr h.symm)))
  rw [if_neg h5] at h
  obtain ⟨c3, h3ok⟩ := tmf_static_ok c mc
  rw [h3ok] at h
  exact Except.noConfusion h

/-- Claim C6 — with the checks that precede it passing, static validation
rejects `LogSizeMax` (with the log-size error) exactly when it is
non-negative and strictly below the 8192-byte I/O buffer size; negative
values (unlimited) and values at or above the buffer size pass this
check. -/
theorem claim_C6_log_size_floor (ext : ExternalChecks) (mc : MonitorChecks)
    (c : RuntimeConfig) (hu : ext.ulimitsOk = true) (hd : ext.devicesOk = true)
    (hdr : exceptIsOk (ValidateDefaultRuntime c) = true)
    (htz : c.Timezone = "" ∨ c.Timezone.toLower = "local" ∨ ext.timezoneOk = true) :
    ValidateStatic ext mc c = .error "log size max should be negative or >= 8192" ↔
      0 ≤ c.LogSizeMax ∧ c.LogSizeMax < OCIBufSize := by
  rw [ValidateStatic, if_neg (by simp [hu]), if_neg (by simp [hd])]
  cases hvdr : ValidateDefaultRuntime c with
  | error e =>
      rw [hvdr] at hdr
      exact absurd hdr (by simp [exceptIsOk])
  | ok c1 =>
      obtain ⟨-, -, -, htzp, hlsp, -, -⟩ := vdr_preserves_fields c c1 hvdr
      unfold validateAfterDefaultRuntime
      dsimp only
      have htzf : ¬(c1.Timezone ≠ "" ∧ c1.Timezone.toLower ≠ "local" ∧
          ext.timezoneOk = false) := by
        rw [htzp]
        rintro ⟨ha, hb, hc⟩
        rcases htz with h | h | h
        · exact ha h
        · exact hb h
        · rw [h] at hc; exact Bool.noConfusion hc
      rw [if_neg htzf, hlsp]
      by_cases hls : 0 ≤ c.LogSizeMax ∧ c.LogSizeMax < OCIBufSize
      · rw [if_pos hls]
        exact ⟨fun _ => hls, fun _ => rfl⟩
      · rw [if_neg hls]
        constructor
        · intro habs
          rcases afterStop_static_errors ext mc _ _ habs with h | h | h | h | h <;>
            exact absurd h (by decide)
        · intro habs
          exact absurd habs hls

/-- Witness for C6: `LogSizeMax = 100` is rejected with the log-size error;
`-1` and `9000` are not. -/
theorem claim_C6_log_size_floor_witness :
    ValidateStatic {} mcNone c6Small = .error "log size max should be negative or >= 8192" ∧
    ValidateStatic {} mcNone c6Neg ≠ .error "log size max should be negative or >= 8192" ∧
    ValidateStatic {} mcNone c6Big ≠ .error "log size max should be negative or >= 8192" := by
  refine ⟨?_, ?_, ?_⟩
  · exact (claim_C6_log_size_floor {} mcNone c6Small rfl rfl (by decide)
      (Or.inl rfl)).mpr (by decide)
  · intro h
    exact absurd ((claim_C6_log_size_floor {} mcNone c6Neg rfl rfl (by decide)
      (Or.inl rfl)).mp h) (by decide)
  · intro h
    exact absurd ((claim_C6_log_size_floor {} mcNone c6Big rfl rfl (by decide)
      (Or.inl rfl)).mp h) (by decide)

/-- Counterexample to Claim C7 as stated: static validation is not free of
environmental effects — with a non-empty `infra_ctr_cpuset` it performs the
taskset `$PATH` lookup (which sits before the `onExecution` guard in the
source) and its outcome changes the validation result, so a structurally
valid configuration can fail statically for a purely environmental
reason. -/
theorem claim_C7_counterexample :
    ValidateStatic { tasksetFound := false } mcNone c7Cpu ≠
      ValidateStatic {} mcNone c7Cpu := by
  decide

theorem afterStop_taskset_irrelevant (ext : ExternalChecks) (b : Bool) (mc : MonitorChecks)
    (c : RuntimeConfig) (h : c.InfraCtrCPUSet = "") :
    validateAfterStopTimeout { ext with tasksetFound := b } mc c =
      validateAfterStopTimeout ext mc c := by
  obtain ⟨u, d, tz0, sy, ca, cp, tk, w⟩ := ext
  rw [validateAfterStopTimeout, validateAfterStopTimeout]
  dsimp only
  rw [h]
  simp

/-- Claim C7 (amended) — static validation is independent of the host
environment except for the taskset binary discovery: when
`infra_ctr_cpuset` is empty (its default), the result of static validation
does not depend on whether the taskset binary is present on `$PATH`; with a
non-empty CPU set, the `$PATH` probe runs even statically (see the
counterexample). -/
theorem claim_C7_static_env_free (ext : ExternalChecks) (mc : MonitorChecks)
    (c : RuntimeConfig) (b : Bool) (h : c.InfraCtrCPUSet = "") :
    ValidateStatic { ext with tasksetFound := b } mc c = ValidateStatic ext mc c := by
  obtain ⟨u, d, tz0, sy, ca, cp, tk, w⟩ := ext
  rw [ValidateStatic, ValidateStatic]
  dsimp only
  cases hvdr : ValidateDefaultRuntime c with
  | error e => rfl
  | ok c1 =>
      obtain ⟨-, -, -, -, -, -, hic⟩ := vdr_preserves_fields c c1 hvdr
      by_cases h1 : u = false
      · simp [h1]
      by_cases h2 : d = false
      · simp [h1, h2]
      rw [if_neg h1, if_neg h1, if_neg h2, if_neg h2]
      unfold validateAfterDefaultRuntime
      dsimp only
      have hic2 : (correctCtrStopTimeout c1).InfraCtrCPUSet = "" := by
        rw [correct_ctr_eq]
        exact hic.trans h
      rw [afterStop_taskset_irrelevant ⟨u, d, tz0, sy, ca, cp, tk, w⟩ b mc
        (correctCtrStopTimeout c1) hic2]

/-- Witness for the amended C7: with the default (empty) CPU set, removing
taskset from `$PATH` does not change the result of static validation. -/
theorem claim_C7_static_env_free_witness :
    ValidateStatic { tasksetFound := false } mcNone {} = ValidateStatic {} mcNone {} :=
  claim_C7_static_env_free {} mcNone {} false rfl

end CrioConfig
